import Mathlib

/-!
Verification of the LOC-counter core (ignore-pattern matching and recursive
scan engine) against its natural-language specification.

The development shallowly embeds the Python sources:
  * `config.py`        — comment markers, excluded/included extension tables;
  * `file_processor.py`— `FileProcessor.is_code_file`,
                         `FileProcessor.is_likely_text_file`,
                         `FileProcessor.count_lines_in_file`;
  * `path_spec_builder.py` — `PathSpecBuilder._find_gitignore`,
                         `PathSpecBuilder.matches`;
  * `directory_scanner.py` — `DirectoryScanner.scan`,
                         `DirectoryScanner._process_entry`.

Filesystem effects are made explicit: a filesystem is a finite tree of
nodes, an absolute resolved path is a list of name components (the model
has no symlinks, so `Path.resolve` is the identity and path equality is
component-list equality), and reading a file yields its byte list
(`none` modelling an I/O error where the source catches one).
-/

namespace Loc

/-- Absolute resolved path, as its list of name components. -/
abbrev AbsPath := List String

/-- The `processed_paths` set of `DirectoryScanner` (a Python `set` of
absolute resolved paths); modelled as a list queried by membership, with
`add` as cons. -/
abbrev Visited := List AbsPath

/-! ## Filesystem model

Directory children are encoded as a chain of `econs` cells ending in
`enil`, so that every traversal below is plain structural recursion and
reduces inside the kernel.  A node that is neither `file` nor `dir`
(`special`, and the stray chain constructors when they appear as an
entry) models Python's "neither a file nor a directory" case. -/

inductive FSNode where
  | file (content : List Nat)
  | special
  | dir (entries : FSNode)
  | enil
  | econs (name : String) (child : FSNode) (rest : FSNode)
deriving Repr, DecidableEq

/-- Python `Path.is_dir` on an existing entry of the model. -/
def FSNode.isDirNode : FSNode → Bool
  | .dir _ => true
  | _ => false

/-- Python `Path.is_file` on an existing entry of the model. -/
def FSNode.isFileNode : FSNode → Bool
  | .file _ => true
  | _ => false

/-- Lookup of a name in a directory's entry chain. -/
def chainLookup : FSNode → String → Option FSNode
  | .econs n c rest, name => if n = name then some c else chainLookup rest name
  | _, _ => none

/-- Resolution of an absolute path in the tree; `none` means the path
does not exist (`Path.exists()` is false). -/
def lookup : FSNode → AbsPath → Option FSNode
  | node, [] => some node
  | .dir es, n :: rest =>
      match chainLookup es n with
      | some c => lookup c rest
      | none => none
  | _, _ :: _ => none

/-- Existence of a regular file at a path (`Path.is_file()` from the root). -/
def isFileAt (root : FSNode) (p : AbsPath) : Bool :=
  match lookup root p with
  | some (.file _) => true
  | _ => false

/-! ## UTF-8

`file_processor.py` opens files twice: once in binary mode (the sniff of
`is_likely_text_file`) and once in text mode (`encoding='utf-8'` with
`errors='strict'` for the sniff's final check and `errors='ignore'` for
line counting).  The decoder below implements RFC 3629 UTF-8 exactly as
CPython's strict codec does: continuation-byte ranges per leading byte,
rejecting overlong forms, surrogates and code points above `0x10FFFF`. -/

/-- Decoding of one UTF-8 scalar value from the head of a byte list:
the code point and the remaining bytes, or `none` on an invalid
sequence. -/
def utf8DecodeOne : List Nat → Option (Nat × List Nat)
  | [] => none
  | b :: rest =>
      if b < 128 then some (b, rest)
      else if 194 ≤ b ∧ b ≤ 223 then
        match rest with
        | c1 :: r1 =>
            if 128 ≤ c1 ∧ c1 ≤ 191 then some ((b - 192) * 64 + (c1 - 128), r1) else none
        | [] => none
      else if 224 ≤ b ∧ b ≤ 239 then
        match rest with
        | c1 :: c2 :: r2 =>
            let lo1 := if b = 224 then 160 else 128
            let hi1 := if b = 237 then 159 else 191
            if (lo1 ≤ c1 ∧ c1 ≤ hi1) ∧ (128 ≤ c2 ∧ c2 ≤ 191) then
              some ((b - 224) * 4096 + (c1 - 128) * 64 + (c2 - 128), r2)
            else none
        | _ => none
      else if 240 ≤ b ∧ b ≤ 244 then
        match rest with
        | c1 :: c2 :: c3 :: r3 =>
            let lo1 := if b = 240 then 144 else 128
            let hi1 := if b = 244 then 143 else 191
            if (lo1 ≤ c1 ∧ c1 ≤ hi1) ∧ (128 ≤ c2 ∧ c2 ≤ 191) ∧ (128 ≤ c3 ∧ c3 ≤ 191) then
              some ((b - 240) * 262144 + (c1 - 128) * 4096 + (c2 - 128) * 64 + (c3 - 128), r3)
            else none
        | _ => none
      else none

/-- Strict decode of up to `budget` characters from the start of the
file (`f.read(512)` with `errors='strict'`): `true` when no invalid
sequence is hit before the budget is exhausted or the bytes end. -/
def utf8ReadOk : Nat → List Nat → Bool
  | 0, _ => true
  | _, [] => true
  | budget + 1, bs =>
      match utf8DecodeOne bs with
      | some (_, rest) => utf8ReadOk budget rest
      | none => false

/-- Decode with `errors='ignore'`: an invalid byte is dropped and
decoding resumes at the next byte.  The fuel argument (instantiated with
the byte count) only serves termination; every step consumes at least
one byte. -/
def utf8DecodeIgnore : Nat → List Nat → List Char
  | 0, _ => []
  | _, [] => []
  | fuel + 1, bs =>
      match utf8DecodeOne bs with
      | some (cp, rest) => Char.ofNat cp :: utf8DecodeIgnore fuel rest
      | none => utf8DecodeIgnore fuel bs.tail

/-! ## Text-mode line splitting

Python text mode applies universal-newline translation (`\r\n` and a
lone `\r` both become `\n`) and `for line in f` then yields each line
with its trailing `\n` kept (the last line may lack one). -/

/-- Universal-newline translation. -/
def translateNewlines : List Char → List Char
  | [] => []
  | '\r' :: '\n' :: rest => '\n' :: translateNewlines rest
  | '\r' :: rest => '\n' :: translateNewlines rest
  | c :: rest => c :: translateNewlines rest

/-- Splitting after each `'\n'`, keeping the terminator on each yielded
line; `acc` holds the current line's characters in reverse. -/
def splitKeepAux (acc : List Char) : List Char → List (List Char)
  | [] => if acc = [] then [] else [acc.reverse]
  | '\n' :: rest => (acc.reverse ++ ['\n']) :: splitKeepAux [] rest
  | c :: rest => splitKeepAux (c :: acc) rest

/-- The physical lines Python's text-mode iteration yields for a file
with the given bytes. -/
def decodeLines (bs : List Nat) : List (List Char) :=
  splitKeepAux [] (translateNewlines (utf8DecodeIgnore bs.length bs))

/-! ## FileProcessor -/

/-- Configuration state of `FileProcessor.__init__`: the whitespace
toggle and the comment markers (the markers come from
`config.COMMENT_MARKERS`). -/
structure FileProcessor where
  count_whitespace_only_lines : Bool
  comment_markers : List (List Char)

/-- `config.COMMENT_MARKERS`. -/
def COMMENT_MARKERS : List (List Char) :=
  [['#'], ['/', '/'], ['-', '-'], [';'], ['R', 'E', 'M'], ['\'']]

/-- `config.EXCLUDED_EXTENSIONS` (a Python set of strings; order is
irrelevant, membership is string equality). -/
def EXCLUDED_EXTENSIONS : List String :=
  [".exe", ".dll", ".so", ".dylib",
   ".zip", ".tar", ".gz", ".7z", ".rar",
   ".jpg", ".jpeg", ".png", ".gif", ".bmp", ".ico",
   ".pdf", ".doc", ".docx", ".xls", ".xlsx",
   ".db", ".sqlite", ".sqlite3",
   ".class", ".jar", ".war",
   ".pyc", ".pyo", ".pyd",
   ".lock",
   ".map", ".min.js", ".min.css",
   ".log", ".tmp", ".temp",
   ".bak", ".swp", ".swo",
   ".DS_Store", "Thumbs.db",
   ".md", ".gitignore"]

/-- `config.INCLUDED_EXTENSIONS`. -/
def INCLUDED_EXTENSIONS : List String :=
  [".js", ".ts", ".jsx", ".tsx",
   ".html", ".htm", ".css", ".scss", ".sass", ".less",
   ".vue", ".svelte",
   ".py", ".pyi", ".pyx",
   ".java", ".kt", ".kts", ".scala",
   ".c", ".cpp", ".h", ".hpp",
   ".cs", ".cshtml", ".csx",
   ".rb", ".erb",
   ".php", ".phtml",
   ".go",
   ".rs",
   ".sh", ".bash", ".zsh",
   ".bat", ".cmd", ".ps1",
   ".json", ".yaml", ".yml", ".toml", ".xml",
   ".rst", ".tex",
   ".sql", ".r", ".m", ".swift", ".f90",
   ".pl", ".pm", ".t", ".lua", ".elm"]

/-- Python `pathlib.PurePath.suffix` of a file name: the last dot and
what follows, provided the dot is neither the first nor the last
character of the name; otherwise the empty string. -/
def pySuffix (name : String) : String :=
  let r := name.data.reverse
  let k := (r.takeWhile (fun c => c ≠ '.')).length
  if k = r.length then ""
  else if k = 0 then ""
  else if r.length - 1 - k = 0 then ""
  else String.mk ((r.take (k + 1)).reverse)

/-- Python `str.lower()` (characterwise, which agrees with CPython on
the ASCII file names this development evaluates). -/
def pyToLower (s : String) : String :=
  String.mk (s.data.map Char.toLower)

/-- Count of bytes with the high bit set in the sniffed chunk
(`sum(1 for byte in chunk if byte > 127)`). -/
def countHighBytes (bs : List Nat) : Nat :=
  (bs.filter (fun b => 127 < b)).length

/-- `FileProcessor.is_likely_text_file`.  The argument is the file's
bytes, or `none` when opening/reading raises (`IOError`/`OSError` — the
source returns `False` then).  The first 1024 bytes are sniffed: empty
file → text; a null byte → binary; more than 30% high-bit bytes →
binary (the float comparison `count/len > 0.3` equals the exact rational
comparison for chunks of at most 1024 bytes, written here as
`3*len < 10*count`); otherwise a strict UTF-8 read of up to 512
characters decides. -/
def is_likely_text_file (data : Option (List Nat)) : Bool :=
  match data with
  | none => false
  | some bs =>
      let chunk := bs.take 1024
      if chunk = [] then true
      else if 0 ∈ chunk then false
      else if 3 * chunk.length < 10 * countHighBytes chunk then false
      else utf8ReadOk 512 bs

/-- `FileProcessor.is_code_file`: excluded extension or excluded exact
lowercased name → reject; else a nonempty include list containing the
nonempty extension → accept; else fall back to the content sniff. -/
def is_code_file (name : String) (data : Option (List Nat)) : Bool :=
  let extension := pyToLower (pySuffix name)
  let nm := pyToLower name
  if extension ∈ EXCLUDED_EXTENSIONS ∨ nm ∈ EXCLUDED_EXTENSIONS then false
  else if INCLUDED_EXTENSIONS ≠ [] ∧ extension ≠ "" ∧ extension ∈ INCLUDED_EXTENSIONS then true
  else is_likely_text_file data

/-! ## LineCounter -/

/-- Python whitespace for `str.strip()` (restricted to the ASCII range,
which covers every input in this development). -/
def pyIsSpace (c : Char) : Bool :=
  c = ' ' ∨ c = '\t' ∨ c = '\n' ∨ c = '\r' ∨ c = '\x0b' ∨ c = '\x0c'

/-- `line.rstrip('\n\r')`. -/
def rstripNewline (l : List Char) : List Char :=
  (l.reverse.dropWhile (fun c => c = '\n' ∨ c = '\r')).reverse

/-- `line.strip()` (both ends). -/
def pyStrip (l : List Char) : List Char :=
  ((l.dropWhile pyIsSpace).reverse.dropWhile pyIsSpace).reverse

/-- One iteration of the loop body of `FileProcessor.count_lines_in_file`:
strip the trailing newline characters; skip a now-empty line; a
whitespace-only line bumps the count only under
`count_whitespace_only_lines`; a line starting (after stripping) with a
comment marker is skipped; anything else bumps the count. -/
def countLineStep (fp : FileProcessor) (loc : Nat) (line : List Char) : Nat :=
  let content := rstripNewline line
  if content = [] then loc
  else
    let stripped := pyStrip content
    if stripped = [] then
      if fp.count_whitespace_only_lines then loc + 1 else loc
    else if fp.comment_markers.any (fun m => List.isPrefixOf m stripped) then loc
    else loc + 1

/-- `FileProcessor.count_lines_in_file` over the file's physical lines. -/
def count_lines_in_file (fp : FileProcessor) (lines : List (List Char)) : Nat :=
  lines.foldl (countLineStep fp) 0

/-- Line count of a file given its bytes: text-mode decoding with
`errors='ignore'`, then the counting loop. -/
def countLinesBytes (fp : FileProcessor) (bs : List Nat) : Nat :=
  count_lines_in_file fp (decodeLines bs)

/-! ## Scan results -/

/-- The accumulator returned by `DirectoryScanner.scan` and
`DirectoryScanner._process_entry`:
`(total_loc, total_files_processed, processed_files_list)`. -/
structure ScanRes where
  loc : Nat
  files : Nat
  paths : List String
deriving Repr, DecidableEq

/-- Pointwise combination used when summing a child's contribution into
the enclosing accumulators (`+=` on the counters, `extend` on the list). -/
def ScanRes.add (a b : ScanRes) : ScanRes :=
  ⟨a.loc + b.loc, a.files + b.files, a.paths ++ b.paths⟩

/-- The all-zero contribution `(0, 0, [])`. -/
def ScanRes.zero : ScanRes := ⟨0, 0, []⟩

/-! ## Display paths

`_process_entry` computes `relative_path = abs_target_path.relative_to(self.base_dir)`
for display, falling back to the absolute path when the target lies
outside the base directory (`ValueError`). -/

/-- Rendering of a path relative to `base`: the relative components
joined by `/` (Python `str(Path)`, `'.'` for the base itself), or the
absolute rendering with a leading `/` when `base` is not a prefix. -/
def displayPath (base p : AbsPath) : String :=
  if List.isPrefixOf base p then
    let rel := p.drop base.length
    if rel = [] then "." else String.intercalate "/" rel
  else
    "/" ++ String.intercalate "/" p

/-! ## The scan engine

`DirectoryScanner` receives its collaborators by injection: the
`FileProcessor` (here the two functions it calls on a file's bytes) and
the `PathSpecBuilder` matcher (here a function of the absolute path and
directory-ness; `base_dir` is already fixed inside it). -/

structure ScanConfig where
  /-- `self.file_processor.is_likely_text_file`, applied to the file's bytes. -/
  isText : List Nat → Bool
  /-- `self.file_processor.count_lines_in_file`, applied to the file's bytes. -/
  countBytes : List Nat → Nat
  /-- `self.path_spec_builder.matches(abs_path, self.base_dir, is_dir)`. -/
  matchesFn : AbsPath → Bool → Bool
  /-- `self.base_dir`. -/
  base : AbsPath
  /-- `self.verbose`. -/
  verbose : Bool

/-- One step of `DirectoryScanner._process_entry` (mode `false`), and the
`for entry in abs_target_path.iterdir()` loop over a directory's entry
chain (mode `true`).  Mode `false` receives the node the entry resolved
to; the existence check happens at `processTarget` below for targets and
is immediate for children produced by `iterdir`.  Step order follows the
source: visited check, then ignore check (`matches` with the entry's
directory-ness), then the file / directory / other branches.  In the
file branch, a file rejected by the sniff is added to the visited set
only under `self.verbose` — faithfully reproducing the `elif
self.verbose:` block of the source. -/
def process_entry (cfg : ScanConfig) : Bool → FSNode → AbsPath → Visited → ScanRes × Visited
  | false, node, path, v =>
      if path ∈ v then (ScanRes.zero, v)
      else
        let ignored := cfg.matchesFn path node.isDirNode
        if ignored then (ScanRes.zero, path :: v)
        else
          match node with
          | .file content =>
              if cfg.isText content then
                (⟨cfg.countBytes content, 1, [displayPath cfg.base path]⟩, path :: v)
              else if cfg.verbose then (ScanRes.zero, path :: v)
              else (ScanRes.zero, v)
          | .dir es => process_entry cfg true es path (path :: v)
          | _ => (ScanRes.zero, path :: v)
  | true, .econs name child rest, path, v =>
      let p1 := process_entry cfg false child (path ++ [name]) v
      let p2 := process_entry cfg true rest path p1.2
      (p1.1.add p2.1, p2.2)
  | true, _, _, v => (ScanRes.zero, v)

/-- Processing of one top-level target string: resolve and check
existence (a nonexistent target warns and contributes nothing), then run
`_process_entry` on the resolved node. -/
def processTarget (cfg : ScanConfig) (root : FSNode) (t : AbsPath) (v : Visited) :
    ScanRes × Visited :=
  match lookup root t with
  | none => (ScanRes.zero, v)
  | some node => process_entry cfg false node t v

/-- `DirectoryScanner.scan`: fold the targets left to right, threading
the visited set (which lives on the scanner instance) and summing the
per-target contributions. -/
def scan (cfg : ScanConfig) (root : FSNode) : List AbsPath → Visited → ScanRes × Visited
  | [], v => (ScanRes.zero, v)
  | t :: ts, v =>
      let p1 := processTarget cfg root t v
      let p2 := scan cfg root ts p1.2
      (p1.1.add p2.1, p2.2)

/-! ## PathSpecBuilder -/

/-- The `gitignore_path` parameter of `PathSpecBuilder.__init__`:
`None` (auto-detect), the empty string (explicit disable), or an
explicit path (modelled already resolved to components). -/
inductive GitignoreArg where
  | auto
  | disable
  | explicitPath (p : AbsPath)
deriving Repr, DecidableEq

/-- `PathSpecBuilder._find_gitignore`.  An explicit path is used when it
is a regular file (else a warning, and no gitignore is loaded).  Under
auto-detect the source constructs the relative path `Path('.gitignore')`
and tests it, which the operating system resolves against the process's
current working directory `cwd` — the model therefore takes `cwd`, and
no base-directory argument exists to take. -/
def find_gitignore (root : FSNode) (cwd : AbsPath) (arg : GitignoreArg) : Option AbsPath :=
  match arg with
  | .explicitPath p => if isFileAt root p then some p else none
  | .auto =>
      if isFileAt root (cwd ++ [".gitignore"]) then some (cwd ++ [".gitignore"]) else none
  | .disable => none

/-- Error classes distinguished by the `except` clauses of
`PathSpecBuilder.matches`: `ValueError` (from `relative_to`) and every
other exception (`Path.resolve` failures, modelled as `osError`). -/
inductive PyError where
  | valueError
  | osError
deriving Repr, DecidableEq

/-- `Path.relative_to`: drop the base prefix, or raise `ValueError` when
the base is not a prefix of the path. -/
def relative_to (p b : AbsPath) : Except PyError AbsPath :=
  if List.isPrefixOf b p then .ok (p.drop b.length) else .error .valueError

/-- The string fed to `self.spec.match_file`: the relative path in POSIX
form (`'.'` for the base itself), with a trailing `/` appended for a
directory. -/
def renderRelForMatch (rel : AbsPath) (isdir : Bool) : String :=
  (if rel = [] then "." else String.intercalate "/" rel) ++ (if isdir then "/" else "")

/-- The `try` body of `PathSpecBuilder.matches`: resolve the base
directory, resolve the path under test (both resolutions are inputs
here, `Except` capturing a raised error), compute the relative path and
query the compiled spec. -/
def matchesBody (specFn : String → Bool) (rp rb : Except PyError AbsPath)
    (isdir : Bool) : Except PyError Bool :=
  match rb with
  | .error e => .error e
  | .ok b =>
      match rp with
      | .error e => .error e
      | .ok p =>
          match relative_to p b with
          | .error e => .error e
          | .ok rel => .ok (specFn (renderRelForMatch rel isdir))

/-- `PathSpecBuilder.matches` with its `except` clauses: `ValueError`
(path outside the base directory) degrades to "not ignored"; any other
error degrades to "ignored". -/
def PathSpecBuilder_matches (specFn : String → Bool) (rp rb : Except PyError AbsPath)
    (isdir : Bool) : Bool :=
  match matchesBody specFn rp rb isdir with
  | .ok r => r
  | .error .valueError => false
  | .error .osError => true

/-! ## Specification-side predicate for line counting

Written from the specification's wording (not from the source), to be
compared with `count_lines_in_file`: a physical line is counted exactly
when, after stripping trailing newline characters, it is non-empty, a
whitespace-only line follows the `countWhitespaceOnly` flag, and
otherwise its whitespace-trimmed text does not start with any comment
marker. -/
def specCountedLine (countWs : Bool) (markers : List (List Char)) (line : List Char) : Bool :=
  if rstripNewline line = [] then false
  else if pyStrip (rstripNewline line) = [] then countWs
  else !(markers.any fun m => List.isPrefixOf m (pyStrip (rstripNewline line)))

/-! ## Concrete instances

The wiring of `app.py`: a `FileProcessor` with the config defaults and a
`DirectoryScanner` whose classifier and counter are that processor's
methods.  `is_likely_text_file` receives `some` bytes because every file
in these concrete trees is readable. -/

/-- `FileProcessor()` with the `config.py` defaults. -/
def fpDefault : FileProcessor := ⟨false, COMMENT_MARKERS⟩

/-- A `DirectoryScanner` configuration wired like `app.py` does it. -/
def mkScanConfig (fp : FileProcessor) (specFn : AbsPath → Bool → Bool)
    (base : AbsPath) (verbose : Bool) : ScanConfig :=
  { isText := fun bs => is_likely_text_file (some bs)
    countBytes := countLinesBytes fp
    matchesFn := specFn
    base := base
    verbose := verbose }

/-- The matcher of an empty pattern spec (matches nothing). -/
def noIgnore : AbsPath → Bool → Bool := fun _ _ => false

/-- Bytes of the text `"build/\n"`. -/
def gitignoreBytes : List Nat := [98, 117, 105, 108, 100, 47, 10]

/-- A scan root holding a single text file named `.gitignore`. -/
def c1root : FSNode := .dir (.econs ".gitignore" (.file gitignoreBytes) .enil)

/-- Scanner configured with no ignore patterns, base at the root, quiet. -/
def quietCfg : ScanConfig := mkScanConfig fpDefault noIgnore [] false

/-- A root with `home/` (the process's working directory, without a
gitignore) and `repo/` (a checkout holding `repo/.gitignore`). -/
def c2root : FSNode :=
  .dir (.econs "home" (.dir .enil)
    (.econs "repo" (.dir (.econs ".gitignore" (.file [42, 10]) .enil)) .enil))

/-- A root holding one binary file (a null byte in the first chunk). -/
def c3root : FSNode := .dir (.econs "data.bin" (.file [0, 1, 2]) .enil)

/-- A root holding one text file `a.py` with bytes `"x=1\n"`. -/
def c4root : FSNode := .dir (.econs "a.py" (.file [120, 61, 49, 10]) .enil)

/-- Entry chain of a directory holding the text file `out.py`
(bytes `"print\n"`), used under an ignored directory. -/
def c5sub : FSNode := .econs "out.py" (.file [112, 114, 105, 110, 116, 10]) .enil

/-- Scanner configuration whose pattern spec ignores exactly the path
`build`. -/
def c5cfg : ScanConfig :=
  mkScanConfig fpDefault (fun p _ => decide (p = ["build"])) [] false

/-- A root with a directory `d` holding the text file `file.txt`
(bytes `"hi\n"`). -/
def c6root : FSNode :=
  .dir (.econs "d" (.dir (.econs "file.txt" (.file [104, 105, 10]) .enil)) .enil)

/-! ## Basic algebra of scan results -/

@[simp]
theorem ScanRes.add_zero (a : ScanRes) : a.add ScanRes.zero = a := by
  cases a; simp [ScanRes.add, ScanRes.zero]

@[simp]
theorem ScanRes.zero_add (a : ScanRes) : ScanRes.zero.add a = a := by
  cases a; simp [ScanRes.add, ScanRes.zero]

/-! ## Branch equations for `process_entry`

Each lemma names one branch of `_process_entry` and records the result
and visited-set update of that branch. -/

theorem pe_visited (cfg : ScanConfig) (node : FSNode) (path : AbsPath) (v : Visited)
    (hv : path ∈ v) : process_entry cfg false node path v = (ScanRes.zero, v) := by
  rw [process_entry.eq_def]; simp [hv]

theorem pe_ignored (cfg : ScanConfig) (node : FSNode) (path : AbsPath) (v : Visited)
    (hv : path ∉ v) (hig : cfg.matchesFn path node.isDirNode = true) :
    process_entry cfg false node path v = (ScanRes.zero, path :: v) := by
  rw [process_entry.eq_def]; simp [hv, hig]

theorem pe_file_text (cfg : ScanConfig) (content : List Nat) (path : AbsPath) (v : Visited)
    (hv : path ∉ v) (hig : cfg.matchesFn path false = false)
    (ht : cfg.isText content = true) :
    process_entry cfg false (.file content) path v =
      (⟨cfg.countBytes content, 1, [displayPath cfg.base path]⟩, path :: v) := by
  rw [process_entry.eq_def]; simp [hv, FSNode.isDirNode, hig, ht]

theorem pe_file_binary_verbose (cfg : ScanConfig) (content : List Nat) (path : AbsPath)
    (v : Visited) (hv : path ∉ v) (hig : cfg.matchesFn path false = false)
    (ht : cfg.isText content = false) (hvb : cfg.verbose = true) :
    process_entry cfg false (.file content) path v = (ScanRes.zero, path :: v) := by
  rw [process_entry.eq_def]; simp [hv, FSNode.isDirNode, hig, ht, hvb]

theorem pe_file_binary_quiet (cfg : ScanConfig) (content : List Nat) (path : AbsPath)
    (v : Visited) (hv : path ∉ v) (hig : cfg.matchesFn path false = false)
    (ht : cfg.isText content = false) (hvb : cfg.verbose = false) :
    process_entry cfg false (.file content) path v = (ScanRes.zero, v) := by
  rw [process_entry.eq_def]; simp [hv, FSNode.isDirNode, hig, ht, hvb]

theorem pe_dir (cfg : ScanConfig) (es : FSNode) (path : AbsPath) (v : Visited)
    (hv : path ∉ v) (hig : cfg.matchesFn path true = false) :
    process_entry cfg false (.dir es) path v = process_entry cfg true es path (path :: v) := by
  rw [process_entry.eq_def]; simp [hv, FSNode.isDirNode, hig]

theorem pe_nonfile (cfg : ScanConfig) (node : FSNode) (path : AbsPath) (v : Visited)
    (hv : path ∉ v) (hig : cfg.matchesFn path node.isDirNode = false)
    (hf : node.isFileNode = false) (hd : node.isDirNode = false) :
    process_entry cfg false node path v = (ScanRes.zero, path :: v) := by
  cases node <;> simp_all [FSNode.isFileNode, FSNode.isDirNode] <;>
    (rw [process_entry.eq_def]; simp [hv, FSNode.isDirNode, hig])

theorem pe_children (cfg : ScanConfig) (name : String) (child rest : FSNode)
    (path : AbsPath) (v : Visited) :
    process_entry cfg true (.econs name child rest) path v =
      ((process_entry cfg false child (path ++ [name]) v).1.add
        (process_entry cfg true rest path
          (process_entry cfg false child (path ++ [name]) v).2).1,
       (process_entry cfg true rest path
         (process_entry cfg false child (path ++ [name]) v).2).2) := by
  rw [process_entry.eq_def]

/-! ## Growth and idempotent-revisit of the visited set -/

/-- The visited set only grows along an entry visit. -/
theorem process_entry_mono (cfg : ScanConfig) (node : FSNode) :
    ∀ (mode : Bool) (path : AbsPath) (v : Visited),
      v ⊆ (process_entry cfg mode node path v).2 := by
  induction node with
  | file content =>
      intro mode path v
      cases mode with
      | true => simp [process_entry]
      | false =>
          simp only [process_entry]
          split
          · exact fun x hx => hx
          · split
            · exact List.subset_cons_self _ _
            · split
              · exact List.subset_cons_self _ _
              · split
                · exact List.subset_cons_self _ _
                · exact fun x hx => hx
  | special =>
      intro mode path v
      cases mode with
      | true => simp [process_entry]
      | false =>
          simp only [process_entry]
          split
          · exact fun x hx => hx
          · split
            · exact List.subset_cons_self _ _
            · exact List.subset_cons_self _ _
  | enil =>
      intro mode path v
      cases mode with
      | true => simp [process_entry]
      | false =>
          simp only [process_entry]
          split
          · exact fun x hx => hx
          · split
            · exact List.subset_cons_self _ _
            · exact List.subset_cons_self _ _
  | dir es ih =>
      intro mode path v
      cases mode with
      | true => simp [process_entry]
      | false =>
          simp only [process_entry]
          split
          · exact fun x hx => hx
          · split
            · exact List.subset_cons_self _ _
            · exact List.Subset.trans (List.subset_cons_self _ _) (ih true path (path :: v))
  | econs name child rest ihc ihr =>
      intro mode path v
      cases mode with
      | false =>
          simp only [process_entry]
          split
          · exact fun x hx => hx
          · split
            · exact List.subset_cons_self _ _
            · exact List.subset_cons_self _ _
      | true =>
          simp only [process_entry]
          exact List.Subset.trans (ihc false (path ++ [name]) v)
            (ihr true path (process_entry cfg false child (path ++ [name]) v).2)

/-- Re-processing an entry against any visited set that covers the
entry's previous post-visit state contributes nothing and leaves the
set unchanged. -/
theorem process_entry_revisit (cfg : ScanConfig) (node : FSNode) (path : AbsPath)
    (v w : Visited) (hsub : (process_entry cfg false node path v).2 ⊆ w) :
    process_entry cfg false node path w = (ScanRes.zero, w) := by
  by_cases hv : path ∈ v
  · exact pe_visited cfg node path w
      (hsub (by rw [pe_visited cfg node path v hv]; exact hv))
  · by_cases hig : cfg.matchesFn path node.isDirNode = true
    · exact pe_visited cfg node path w
        (hsub (by rw [pe_ignored cfg node path v hv hig]; exact List.mem_cons_self _ _))
    · simp only [Bool.not_eq_true] at hig
      cases node with
      | file content =>
          simp only [FSNode.isDirNode] at hig
          by_cases ht : cfg.isText content = true
          · exact pe_visited cfg _ path w
              (hsub (by rw [pe_file_text cfg content path v hv hig ht];
                        exact List.mem_cons_self _ _))
          · simp only [Bool.not_eq_true] at ht
            by_cases hvb : cfg.verbose = true
            · exact pe_visited cfg _ path w
                (hsub (by rw [pe_file_binary_verbose cfg content path v hv hig ht hvb];
                          exact List.mem_cons_self _ _))
            · simp only [Bool.not_eq_true] at hvb
              by_cases hw : path ∈ w
              · exact pe_visited cfg _ path w hw
              · exact pe_file_binary_quiet cfg content path w hw hig ht hvb
      | dir es =>
          simp only [FSNode.isDirNode] at hig
          refine pe_visited cfg _ path w (hsub ?_)
          rw [pe_dir cfg es path v hv hig]
          exact process_entry_mono cfg es true path (path :: v) (List.mem_cons_self _ _)
      | special =>
          exact pe_visited cfg _ path w
            (hsub (by rw [pe_nonfile cfg _ path v hv hig rfl rfl];
                      exact List.mem_cons_self _ _))
      | enil =>
          exact pe_visited cfg _ path w
            (hsub (by rw [pe_nonfile cfg _ path v hv hig rfl rfl];
                      exact List.mem_cons_self _ _))
      | econs n c rest =>
          exact pe_visited cfg _ path w
            (hsub (by rw [pe_nonfile cfg _ path v hv hig rfl rfl];
                      exact List.mem_cons_self _ _))

theorem processTarget_mono (cfg : ScanConfig) (root : FSNode) (t : AbsPath) (v : Visited) :
    v ⊆ (processTarget cfg root t v).2 := by
  unfold processTarget
  cases lookup root t with
  | none => exact fun x hx => hx
  | some node => exact process_entry_mono cfg node false t v

theorem processTarget_revisit (cfg : ScanConfig) (root : FSNode) (t : AbsPath)
    (v w : Visited) (hsub : (processTarget cfg root t v).2 ⊆ w) :
    processTarget cfg root t w = (ScanRes.zero, w) := by
  unfold processTarget at *
  cases h : lookup root t with
  | none => rfl
  | some node =>
      rw [h] at hsub
      exact process_entry_revisit cfg node t v w hsub

theorem scan_mono (cfg : ScanConfig) (root : FSNode) :
    ∀ (ts : List AbsPath) (v : Visited), v ⊆ (scan cfg root ts v).2 := by
  intro ts
  induction ts with
  | nil => intro v; exact fun x hx => hx
  | cons t ts ih =>
      intro v
      simp only [scan]
      exact List.Subset.trans (processTarget_mono cfg root t v)
        (ih (processTarget cfg root t v).2)

/-- A whole scan against any visited set covering a previous scan's
final state contributes nothing. -/
theorem scan_revisit (cfg : ScanConfig) (root : FSNode) :
    ∀ (ts : List AbsPath) (v w : Visited),
      (scan cfg root ts v).2 ⊆ w → scan cfg root ts w = (ScanRes.zero, w) := by
  intro ts
  induction ts with
  | nil => intro v w _; rfl
  | cons t ts ih =>
      intro v w hsub
      simp only [scan] at hsub ⊢
      have h1 : (processTarget cfg root t v).2 ⊆ w :=
        List.Subset.trans (scan_mono cfg root ts (processTarget cfg root t v).2) hsub
      rw [processTarget_revisit cfg root t v w h1]
      rw [ih (processTarget cfg root t v).2 w hsub]
      simp

/-! ## Path lookup and reachability of directory children -/

theorem lookup_append (a : AbsPath) :
    ∀ (root : FSNode) (b : AbsPath),
      lookup root (a ++ b) = (lookup root a).bind (fun n => lookup n b) := by
  induction a with
  | nil => intro root b; simp [lookup]
  | cons x xs ih =>
      intro root b
      cases root with
      | dir es =>
          simp only [List.cons_append, lookup]
          cases chainLookup es x with
          | none => rfl
          | some c => exact ih c b
      | file content => rfl
      | special => rfl
      | enil => rfl
      | econs n c rest => rfl

/-- A directory child found by `chainLookup` is processed during the
directory's `iterdir` loop: its post-visit state is covered by the
loop's final visited set. -/
theorem chain_child_visited (cfg : ScanConfig) :
    ∀ (es : FSNode) (path : AbsPath) (v : Visited) (name : String) (c : FSNode),
      chainLookup es name = some c →
      ∃ va, (process_entry cfg false c (path ++ [name]) va).2 ⊆
        (process_entry cfg true es path v).2 := by
  intro es
  induction es with
  | econs n child rest ihc ihr =>
      intro path v name c hc
      simp only [chainLookup] at hc
      by_cases hn : n = name
      · rw [if_pos hn] at hc
        injection hc with hc
        subst hc
        subst hn
        refine ⟨v, ?_⟩
        rw [pe_children]
        exact process_entry_mono cfg rest true path _
      · rw [if_neg hn] at hc
        obtain ⟨va, hva⟩ :=
          ihr path (process_entry cfg false child (path ++ [n]) v).2 name c hc
        refine ⟨va, ?_⟩
        rw [pe_children]
        exact hva
  | file content => intro _ _ _ _ hc; simp [chainLookup] at hc
  | special => intro _ _ _ _ hc; simp [chainLookup] at hc
  | enil => intro _ _ _ _ hc; simp [chainLookup] at hc
  | dir es ih => intro _ _ _ _ hc; simp [chainLookup] at hc

/-! ## The file-count / path-list correspondence -/

theorem process_entry_files_length (cfg : ScanConfig) (node : FSNode) :
    ∀ (mode : Bool) (path : AbsPath) (v : Visited),
      (process_entry cfg mode node path v).1.files =
        (process_entry cfg mode node path v).1.paths.length := by
  induction node with
  | file content =>
      intro mode path v
      cases mode with
      | true => simp [process_entry, ScanRes.zero]
      | false =>
          simp only [process_entry]
          split
          · simp [ScanRes.zero]
          · split
            · simp [ScanRes.zero]
            · split
              · simp
              · split <;> simp [ScanRes.zero]
  | special =>
      intro mode path v
      cases mode with
      | true => simp [process_entry, ScanRes.zero]
      | false =>
          simp only [process_entry]
          split
          · simp [ScanRes.zero]
          · split <;> simp [ScanRes.zero]
  | enil =>
      intro mode path v
      cases mode with
      | true => simp [process_entry, ScanRes.zero]
      | false =>
          simp only [process_entry]
          split
          · simp [ScanRes.zero]
          · split <;> simp [ScanRes.zero]
  | dir es ih =>
      intro mode path v
      cases mode with
      | true => simp [process_entry, ScanRes.zero]
      | false =>
          simp only [process_entry]
          split
          · simp [ScanRes.zero]
          · split
            · simp [ScanRes.zero]
            · exact ih true path (path :: v)
  | econs name child rest ihc ihr =>
      intro mode path v
      cases mode with
      | false =>
          simp only [process_entry]
          split
          · simp [ScanRes.zero]
          · split <;> simp [ScanRes.zero]
      | true =>
          rw [pe_children]
          simp only [ScanRes.add, List.length_append]
          rw [ihc false (path ++ [name]) v,
            ihr true path (process_entry cfg false child (path ++ [name]) v).2]

theorem scan_files_length (cfg : ScanConfig) (root : FSNode) :
    ∀ (ts : List AbsPath) (v : Visited),
      (scan cfg root ts v).1.files = (scan cfg root ts v).1.paths.length := by
  intro ts
  induction ts with
  | nil => intro v; simp [scan, ScanRes.zero]
  | cons t ts ih =>
      intro v
      simp only [scan, ScanRes.add, List.length_append]
      have h1 : (processTarget cfg root t v).1.files =
          (processTarget cfg root t v).1.paths.length := by
        unfold processTarget
        cases lookup root t with
        | none => simp [ScanRes.zero]
        | some node => exact process_entry_files_length cfg node false t v
      rw [h1, ih (processTarget cfg root t v).2]

/-! ## The counting loop as a filter -/

theorem countLineStep_add (fp : FileProcessor) (n : Nat) (line : List Char) :
    countLineStep fp n line = n + countLineStep fp 0 line := by
  simp only [countLineStep]
  split
  · simp
  · split
    · split <;> simp
    · split
      · simp
      · simp

theorem countLineStep_cases (fp : FileProcessor) (line : List Char) :
    countLineStep fp 0 line = 0 ∨ countLineStep fp 0 line = 1 := by
  simp only [countLineStep]
  split
  · exact Or.inl rfl
  · split
    · split
      · exact Or.inr rfl
      · exact Or.inl rfl
    · split
      · exact Or.inl rfl
      · exact Or.inr rfl

theorem count_lines_foldl (fp : FileProcessor) :
    ∀ (lines : List (List Char)) (n : Nat),
      lines.foldl (countLineStep fp) n =
        n + (lines.filter (fun line => countLineStep fp 0 line = 1)).length := by
  intro lines
  induction lines with
  | nil => intro n; simp
  | cons line rest ih =>
      intro n
      simp only [List.foldl_cons, List.filter_cons]
      rcases countLineStep_cases fp line with h0 | h1
      · rw [countLineStep_add fp n line, h0, ih]
        rw [if_neg (by simp [h0])]
        simp
      · rw [countLineStep_add fp n line, h1, ih]
        rw [if_pos (by simp [h1])]
        simp only [List.length_cons]
        omega

/-- The loop body counts a line exactly when the specification-side
predicate accepts it. -/
theorem countLineStep_eq_spec (fp : FileProcessor) (line : List Char) :
    decide (countLineStep fp 0 line = 1) =
      specCountedLine fp.count_whitespace_only_lines fp.comment_markers line := by
  simp only [countLineStep, specCountedLine]
  split
  · simp
  · split
    · cases fp.count_whitespace_only_lines <;> simp
    · split
      · simp_all [List.any_eq_true, List.isPrefixOf_iff_prefix]
      · simp_all [List.any_eq_true, List.isPrefixOf_iff_prefix]

/-! ## Claims -/

/-- C1.  The claim says the engine decides whether to count a file via
the `FileClassifier` decision order (`is_code_file`), so that a file
whose extension or lowercased name is in the excluded set (`.md`,
`.gitignore`, `.log`) is never counted and never appended.  The code
instead calls `is_likely_text_file` directly
(`directory_scanner.py:110`), so the scan of a text file named
`.gitignore` counts it (LOC 1, one file, path appended) even though
`is_code_file` rejects it — contradicting the repository's own tests,
which expect `.gitignore` to be skipped. -/
theorem claim_C1_scanner_bypasses_classifier :
    (scan quietCfg c1root [[".gitignore"]] []).1 =
      ⟨1, 1, [".gitignore"]⟩ ∧
    is_code_file ".gitignore" (some gitignoreBytes) = false := by
  constructor
  · decide
  · decide

/-- C2.  The claim says auto-detection looks for `.gitignore` in the
scan's base directory for every base directory.  The code's
`_find_gitignore` tests the relative path `Path('.gitignore')`, which
resolves against the process's current working directory and takes no
base-directory input at all: with the working directory at `home` and a
scan base of `repo`, the present `repo/.gitignore` is not found, while
running from `repo` itself would find it. -/
theorem claim_C2_autodetect_uses_cwd :
    find_gitignore c2root ["home"] .auto = none ∧
    isFileAt c2root ["repo", ".gitignore"] = true ∧
    find_gitignore c2root ["repo"] .auto = some ["repo", ".gitignore"] := by
  refine ⟨by decide, by decide, by decide⟩

/-- C3, counterexample.  The claim says every reached, non-ignored file
is added to the visited set regardless of the classification outcome
and of the verbose flag; but scanning a binary file with `verbose`
false leaves the visited set empty (the `add` for the rejected file
sits inside the `elif self.verbose:` block). -/
theorem claim_C3_counterexample :
    ["data.bin"] ∉ (scan quietCfg c3root [["data.bin"]] []).2 := by decide

/-- C3, amended.  A reached, non-ignored file is added to the visited
set when accepted as text; a file rejected by the sniff is added only
when verbose is true and is not added when verbose is false; in every
case a later visit of the same resolved path contributes nothing and
leaves the visited set unchanged. -/
theorem claim_C3_amended_visited_marking (cfg : ScanConfig) (content : List Nat)
    (path : AbsPath) (v : Visited) (hv : path ∉ v)
    (hig : cfg.matchesFn path false = false) :
    (cfg.isText content = true →
      (process_entry cfg false (.file content) path v).2 = path :: v) ∧
    (cfg.isText content = false → cfg.verbose = true →
      (process_entry cfg false (.file content) path v).2 = path :: v) ∧
    (cfg.isText content = false → cfg.verbose = false →
      (process_entry cfg false (.file content) path v).2 = v) ∧
    process_entry cfg false (.file content) path
        (process_entry cfg false (.file content) path v).2 =
      (ScanRes.zero, (process_entry cfg false (.file content) path v).2) := by
  refine ⟨?_, ?_, ?_, ?_⟩
  · intro ht; rw [pe_file_text cfg content path v hv hig ht]
  · intro ht hvb; rw [pe_file_binary_verbose cfg content path v hv hig ht hvb]
  · intro ht hvb; rw [pe_file_binary_quiet cfg content path v hv hig ht hvb]
  · exact process_entry_revisit cfg _ path v _ (fun _ hx => hx)

/-- Witness for C3's amended theorem at the binary file `data.bin`
with the quiet configuration. -/
theorem claim_C3_amended_witness :
    (quietCfg.isText [0, 1, 2] = true →
      (process_entry quietCfg false (.file [0, 1, 2]) ["data.bin"] []).2 = [["data.bin"]]) ∧
    (quietCfg.isText [0, 1, 2] = false → quietCfg.verbose = true →
      (process_entry quietCfg false (.file [0, 1, 2]) ["data.bin"] []).2 = [["data.bin"]]) ∧
    (quietCfg.isText [0, 1, 2] = false → quietCfg.verbose = false →
      (process_entry quietCfg false (.file [0, 1, 2]) ["data.bin"] []).2 = []) ∧
    process_entry quietCfg false (.file [0, 1, 2]) ["data.bin"]
        (process_entry quietCfg false (.file [0, 1, 2]) ["data.bin"] []).2 =
      (ScanRes.zero, (process_entry quietCfg false (.file [0, 1, 2]) ["data.bin"] []).2) :=
  claim_C3_amended_visited_marking quietCfg [0, 1, 2] ["data.bin"] [] (by decide) (by decide)

/-- C4, counterexample.  The claim says a second invocation of `scan`
on the same configured engine returns the same triple; but
`processed_paths` persists on the engine across calls, so the second
scan of `a.py` returns `(0, 0, [])` while the first returned
`(1, 1, ["a.py"])`. -/
theorem claim_C4_counterexample :
    (scan quietCfg c4root [["a.py"]] (scan quietCfg c4root [["a.py"]] []).2).1 ≠
      (scan quietCfg c4root [["a.py"]] []).1 := by decide

/-- C4, amended.  Because the visited set persists on the engine, a
second invocation of `scan` on the same engine with the same targets
contributes nothing: it returns `(0, 0, [])` and leaves the visited set
unchanged, for every configuration, tree, target list and starting
visited set.  (Identical triples hold only for scans run on freshly
constructed engines, where each call starts from the same visited
set.) -/
theorem claim_C4_amended_second_scan (cfg : ScanConfig) (root : FSNode)
    (ts : List AbsPath) (v : Visited) :
    scan cfg root ts (scan cfg root ts v).2 = (ScanRes.zero, (scan cfg root ts v).2) :=
  scan_revisit cfg root ts v (scan cfg root ts v).2 (fun _ hx => hx)

/-- C5.  If an entry matches an ignore pattern (queried with the
entry's directory-ness — in particular a directory), the scan marks it
visited and contributes exactly `(0, 0, [])`: no line, no file and no
path — in particular none of the directory's descendants — enters the
result, and the visited set gains only the ignored entry itself, so no
child was descended into. -/
theorem claim_C5_directory_pruning (cfg : ScanConfig) (node : FSNode) (path : AbsPath)
    (v : Visited) (hv : path ∉ v) (hig : cfg.matchesFn path node.isDirNode = true) :
    process_entry cfg false node path v = (ScanRes.zero, path :: v) :=
  pe_ignored cfg node path v hv hig

/-- Witness for C5 at an ignored directory `build` whose child
`out.py` would otherwise be counted as code. -/
theorem claim_C5_witness :
    process_entry c5cfg false (.dir c5sub) ["build"] [] = (ScanRes.zero, [["build"]]) :=
  claim_C5_directory_pruning c5cfg (.dir c5sub) ["build"] [] (by decide) (by decide)

/-- C6.  For targets `[d, d ++ [name]]` where `d` is not ignored (and
not yet visited), the scan returns exactly the result of scanning `[d]`
alone — the visited set shared across the whole call prevents any
double count of the nested target, whatever it is. -/
theorem claim_C6_nested_target_dedup (cfg : ScanConfig) (root : FSNode)
    (d : AbsPath) (name : String) (v : Visited) (hv : d ∉ v)
    (hig : ∀ node, lookup root d = some node → cfg.matchesFn d node.isDirNode = false) :
    scan cfg root [d, d ++ [name]] v = scan cfg root [d] v := by
  simp only [scan]
  suffices h : processTarget cfg root (d ++ [name]) (processTarget cfg root d v).2 =
      (ScanRes.zero, (processTarget cfg root d v).2) by
    rw [h]; simp
  cases hd : lookup root d with
  | none =>
      have hP1 : processTarget cfg root d v = (ScanRes.zero, v) := by
        unfold processTarget; rw [hd]
      rw [hP1]
      unfold processTarget
      rw [lookup_append d root [name], hd]
      rfl
  | some node =>
      have hP1 : processTarget cfg root d v = process_entry cfg false node d v := by
        unfold processTarget; rw [hd]
      rw [hP1]
      unfold processTarget
      rw [lookup_append d root [name], hd]
      cases node with
      | dir es =>
          have hig' := hig (.dir es) hd
          simp only [FSNode.isDirNode] at hig'
          simp only [Option.some_bind, lookup]
          cases hc : chainLookup es name with
          | none => rfl
          | some c =>
              obtain ⟨va, hva⟩ := chain_child_visited cfg es d (d :: v) name c hc
              apply process_entry_revisit cfg c (d ++ [name]) va
              rw [pe_dir cfg es d v hv hig']
              exact hva
      | file content => rfl
      | special => rfl
      | enil => rfl
      | econs n ch rest => rfl

/-- Witness for C6: scanning `["d", "d/file.txt"]` equals scanning
`["d"]` on a tree where `d` holds the text file `file.txt`. -/
theorem claim_C6_witness :
    scan quietCfg c6root [["d"], ["d", "file.txt"]] [] = scan quietCfg c6root [["d"]] [] :=
  claim_C6_nested_target_dedup quietCfg c6root ["d"] "file.txt" [] (by decide)
    (fun _ _ => rfl)

/-- C7.  Content sniffing is characterised exactly by the chain over
the first up-to-1024 bytes: an empty sample is text; a null byte in the
sample means binary; strictly more than 30% high-bit bytes means binary
(so a sample with exactly 30% high-bit bytes — the € sign plus seven
ASCII bytes — passes this rule); otherwise the strict UTF-8 read
decides; an unreadable file (`none`) is binary. -/
theorem claim_C7_content_sniffing :
    (∀ bs : List Nat,
      is_likely_text_file (some bs) = true ↔
        (bs.take 1024 = [] ∨
          (0 ∉ bs.take 1024 ∧
           10 * countHighBytes (bs.take 1024) ≤ 3 * (bs.take 1024).length ∧
           utf8ReadOk 512 bs = true))) ∧
    is_likely_text_file none = false ∧
    is_likely_text_file (some [226, 130, 172, 97, 98, 99, 100, 101, 102, 103]) = true := by
  refine ⟨?_, rfl, by decide⟩
  intro bs
  simp only [is_likely_text_file]
  by_cases h1 : bs.take 1024 = []
  · simp [h1]
  · rw [if_neg h1]
    by_cases h2 : (0 : Nat) ∈ bs.take 1024
    · rw [if_pos h2]
      apply iff_of_false (by simp)
      rintro (hempty | ⟨hnull, _, _⟩)
      · exact h1 hempty
      · exact hnull h2
    · rw [if_neg h2]
      by_cases h3 : 3 * (bs.take 1024).length < 10 * countHighBytes (bs.take 1024)
      · rw [if_pos h3]
        apply iff_of_false (by simp)
        rintro (hempty | ⟨_, hle, _⟩)
        · exact h1 hempty
        · omega
      · rw [if_neg h3]
        constructor
        · intro hok
          exact Or.inr ⟨h2, by omega, hok⟩
        · rintro (hempty | ⟨_, _, hok⟩)
          · exact absurd hempty h1
          · exact hok

/-- C8.  With the default markers, `count_lines_in_file` returns
exactly the number of physical lines accepted by the
specification-side predicate (non-empty after stripping trailing
newlines, whitespace-only lines per the flag, trimmed text not starting
with any marker); in particular the five-line example yields 2 with the
flag off, and a two-whitespace-line file yields 0 with the flag off and
2 with it on. -/
theorem claim_C8_line_counting :
    (∀ (countWs : Bool) (lines : List (List Char)),
      count_lines_in_file ⟨countWs, COMMENT_MARKERS⟩ lines =
        (lines.filter (specCountedLine countWs COMMENT_MARKERS)).length) ∧
    count_lines_in_file ⟨false, COMMENT_MARKERS⟩
      ["# c".data, "code1".data, "".data, "  ".data, "code2 # trailing".data] = 2 ∧
    count_lines_in_file ⟨false, COMMENT_MARKERS⟩ ["  \n".data, "\t\n".data] = 0 ∧
    count_lines_in_file ⟨true, COMMENT_MARKERS⟩ ["  \n".data, "\t\n".data] = 2 := by
  refine ⟨?_, by decide, by decide, by decide⟩
  intro countWs lines
  unfold count_lines_in_file
  rw [count_lines_foldl]
  simp only [Nat.zero_add]
  congr 1
  have hfun : (fun line => decide (countLineStep ⟨countWs, COMMENT_MARKERS⟩ 0 line = 1)) =
      specCountedLine countWs COMMENT_MARKERS := by
    funext line
    exact countLineStep_eq_spec ⟨countWs, COMMENT_MARKERS⟩ line
  rw [hfun]

/-- C9.  The ignore check is fail-safe with the asymmetry fixed by
error type: a path the base directory is not a prefix of (a
`ValueError` from `relative_to`) yields "not ignored", while a
resolution error of the base or of the path (any other exception)
yields "ignored". -/
theorem claim_C9_matcher_error_asymmetry :
    (∀ (specFn : String → Bool) (p b : AbsPath) (isdir : Bool),
      ¬ List.isPrefixOf b p = true →
      PathSpecBuilder_matches specFn (.ok p) (.ok b) isdir = false) ∧
    (∀ (specFn : String → Bool) (rp : Except PyError AbsPath) (isdir : Bool),
      PathSpecBuilder_matches specFn rp (.error .osError) isdir = true) ∧
    (∀ (specFn : String → Bool) (b : AbsPath) (isdir : Bool),
      PathSpecBuilder_matches specFn (.error .osError) (.ok b) isdir = true) := by
  refine ⟨?_, ?_, ?_⟩
  · intro specFn p b isdir h
    simp only [Bool.not_eq_true] at h
    simp [PathSpecBuilder_matches, matchesBody, relative_to, h]
  · intro specFn rp isdir; rfl
  · intro specFn b isdir; rfl

/-- Witness for C9: a path outside the base is not ignored even under
an everything-matching spec, and a base resolution error means ignored
even under a nothing-matching spec. -/
theorem claim_C9_witness :
    PathSpecBuilder_matches (fun _ => true) (.ok ["etc", "x"]) (.ok ["home"]) false = false ∧
    PathSpecBuilder_matches (fun _ => false) (.error .osError) (.ok ["home"]) true = true :=
  ⟨claim_C9_matcher_error_asymmetry.1 (fun _ => true) ["etc", "x"] ["home"] false (by decide),
   claim_C9_matcher_error_asymmetry.2.2 (fun _ => false) ["home"] true⟩

/-- C10.  For every configuration, tree, target list and starting
visited set, the scan's total file count equals the length of its
processed path list, both totals are nonnegative (they live in `ℕ`, as
the accumulators only grow from zero), and the correspondence holds at
every recursive entry visit as well. -/
theorem claim_C10_files_eq_paths_length (cfg : ScanConfig) (root : FSNode)
    (ts : List AbsPath) (v : Visited) :
    (scan cfg root ts v).1.files = (scan cfg root ts v).1.paths.length ∧
    0 ≤ (scan cfg root ts v).1.loc ∧ 0 ≤ (scan cfg root ts v).1.files ∧
    (∀ (mode : Bool) (node : FSNode) (path : AbsPath) (w : Visited),
      (process_entry cfg mode node path w).1.files =
        (process_entry cfg mode node path w).1.paths.length) :=
  ⟨scan_files_length cfg root ts v, Nat.zero_le _, Nat.zero_le _,
   fun mode node path w => process_entry_files_length cfg node mode path w⟩

end Loc
